import Mathlib

/-!
Verification of the gameoflife simulation engine.

This file is a shallow embedding of the pure-Python Game of Life engine
(gameoflife/gameoflife.py and gameoflife/gamepython.py) together with
proofs about it.  The embedding follows the source:

* `CircularList.get` / `CircularList.set` model `CircularList.__getitem__`
  and `__setitem__` (index is taken modulo the list length; Python raises
  `ZeroDivisionError` on an empty list, modelled by `Option`).
* `TorusGrid` models the `TorusGrid` class: a list of rows, each row a
  circular list.
* `GamePython` models the full engine (cells, fates, ages, generation),
  `GamePythonLight` the reduced engine (cells and generation only).
* Probabilities and the values produced by `random.random()` are modelled
  as rationals; a population pass consumes one draw per cell, indexed by
  the (row, col) position the loop writes, which is faithful because the
  loop draws exactly once per cell in a fixed order.

Imperative passes that write every in-range position exactly once and read
only grids they do not write (`_compute_fates`, `populate_random`,
`GamePythonLight._step`) are rendered as whole-grid table constructions;
`_apply_fates`, which updates `ages` and `cells` pointwise from `fates`
and their own previous values, is rendered as a pointwise zip.
-/

namespace GameOfLife

/-- Fates of a cell, from the `Fate` enumeration in gameoflife.py. -/
inductive Fate where
  | StayDead
  | Birth
  | Survive
  | DeathByIsolation
  | DeathByOvercrowding
deriving DecidableEq, Repr

/-- Reading a circular list: the index is reduced modulo the length
(Python `%`, which for a positive modulus is the nonnegative euclidean
remainder).  Reading an empty list raises in Python (`ZeroDivisionError`
from `key % 0`), modelled by `none`. -/
def CircularList.get (l : List α) (key : Int) : Option α :=
  l[(key % (l.length : Int)).toNat]?

/-- Writing a circular list, same index rule as `CircularList.get`. -/
def CircularList.set (l : List α) (key : Int) (v : α) : Option (List α) :=
  if l.length = 0 then none
  else some (l.set (key % (l.length : Int)).toNat v)

/-- A grid whose edges are connected, from the `TorusGrid` class: a list
of rows, each row a circular list. -/
structure TorusGrid (α : Type) where
  rows : List (List α)
deriving DecidableEq, Repr

/-- Grid construction, from `TorusGrid.__init__`: `height` rows, each
`[init_value] * width`.  In Python a non-positive count yields an empty
list, hence `Int.toNat`. -/
def TorusGrid.create (width height : Int) (init : α) : TorusGrid α :=
  ⟨List.replicate height.toNat (List.replicate width.toNat init)⟩

/-- Reading `grid[row][col]`: `TorusGrid.__getitem__` picks the row
circularly, then the row's `CircularList.__getitem__` picks the entry. -/
def TorusGrid.get (g : TorusGrid α) (row col : Int) : Option α :=
  match CircularList.get g.rows row with
  | none => none
  | some r => CircularList.get r col

/-- Writing `grid[row][col] = v`: `TorusGrid.__getitem__` picks the row
circularly, then the row's `CircularList.__setitem__` writes the entry
in place (modelled by replacing the row). -/
def TorusGrid.set (g : TorusGrid α) (row col : Int) (v : α) : Option (TorusGrid α) :=
  match CircularList.get g.rows row with
  | none => none
  | some r =>
    match CircularList.set r col v with
    | none => none
    | some r2 => some ⟨g.rows.set (row % (g.rows.length : Int)).toNat r2⟩

/-- Whole-grid table construction: `height` rows, entry `(r, c)` holding
`f r c`.  This is the net effect of the source's in-place double loops
`for row in range(height): for col in range(width): grid[row][col] = ...`
when every in-range position is written exactly once from data that the
loop does not itself write. -/
def TorusGrid.build (height width : Nat) (f : Nat → Nat → α) : TorusGrid α :=
  ⟨(List.range height).map fun r => (List.range width).map fun c => f r c⟩

/-- Pointwise combination of two grids of identical shape, the net effect
of a double loop writing `g1[row][col] op g2[row][col]` into one of them. -/
def TorusGrid.zip (f : α → β → γ) (g1 : TorusGrid α) (g2 : TorusGrid β) : TorusGrid γ :=
  ⟨List.zipWith (fun r1 r2 => List.zipWith f r1 r2) g1.rows g2.rows⟩

/-- Shape predicate: `h` rows, each of length `w`. -/
def TorusGrid.Shape (g : TorusGrid α) (h w : Nat) : Prop :=
  g.rows.length = h ∧ ∀ row ∈ g.rows, row.length = w

instance (g : TorusGrid α) (h w : Nat) : Decidable (g.Shape h w) := by
  unfold TorusGrid.Shape; infer_instance

/-- Coordinates of the Moore neighborhood, from
`BaseGamePython.coords_neighbors`: the generator yields `(x, y)` for `x`
in `range(row-1, row+2)` and `y` in `range(col-1, col+2)`, skipping the
location itself. -/
def coords_neighbors (row col : Int) : List (Int × Int) :=
  (List.range 3).flatMap fun i =>
    (List.range 3).flatMap fun j =>
      let x := row - 1 + i
      let y := col - 1 + j
      if (row, col) ≠ (x, y) then [(x, y)] else []

/-- Live-neighbor count, from `BaseGamePython.get_number_neighbors`:
count the neighbors whose cell value equals 1. -/
def get_number_neighbors (cells : TorusGrid Nat) (row col : Int) : Nat :=
  (coords_neighbors row col).countP fun p => cells.get p.1 p.2 == some 1

/-- Random population of the cell grid, from
`BaseGamePython.populate_random`: cell `(row, col)` is set to 1 when the
draw for that cell satisfies `draw <= prob`, else 0. -/
def populate_cells (width height : Int) (prob : Rat) (draws : Nat → Nat → Rat) :
    TorusGrid Nat :=
  TorusGrid.build height.toNat width.toNat fun r c => if draws r c ≤ prob then 1 else 0

/-- State of the full pure-Python engine `GamePython`: dimensions and
generation from the `GameOfLife` base class, plus the cells, fates and
ages grids. -/
structure GamePython where
  width : Int
  height : Int
  generation : Int
  cells : TorusGrid Nat
  fates : TorusGrid Fate
  ages : TorusGrid Nat
deriving DecidableEq, Repr

namespace GamePython

/-- Construction, from `GameOfLife.__init__` and `GamePython._init`:
generation 1, all cells dead (0), all fates `StayDead`, all ages 0.
There is no dimension validation anywhere on this path. -/
def new (width height : Int) : GamePython :=
  { width := width
    height := height
    generation := 1
    cells := TorusGrid.create width height 0
    fates := TorusGrid.create width height Fate.StayDead
    ages := TorusGrid.create width height 0 }

/-- Fate of the cell at one location, the body of the per-cell
classification in `GamePython._compute_fates`. -/
def fateOf (cells : TorusGrid Nat) (row col : Int) : Fate :=
  let num_neighbors := get_number_neighbors cells row col
  if cells.get row col == some 0 then
    if num_neighbors = 3 then Fate.Birth else Fate.StayDead
  else
    if num_neighbors < 2 then Fate.DeathByIsolation
    else if num_neighbors > 3 then Fate.DeathByOvercrowding
    else Fate.Survive

/-- The fate-recomputation pass `GamePython._compute_fates`: it writes
`fates[row][col]` for every in-range position exactly once, reading only
the cells grid, which it never writes. -/
def compute_fates (g : GamePython) : GamePython :=
  { g with
    fates := TorusGrid.build g.height.toNat g.width.toNat fun r c => fateOf g.cells r c }

/-- The fate-application pass `GamePython._apply_fates`: for every cell,
fates `StayDead`/`Survive` leave the cell and increment its age, the
other fates reset the age to 0 and set the cell to 1 (`Birth`) or 0
(the two deaths).  The pass reads only `fates` and, at the position being
written, the previous `ages`/`cells` values. -/
def apply_fates (g : GamePython) : GamePython :=
  { g with
    ages := TorusGrid.zip
      (fun f a => if f = Fate.StayDead ∨ f = Fate.Survive then a + 1 else 0)
      g.fates g.ages
    cells := TorusGrid.zip
      (fun f c =>
        if f = Fate.StayDead ∨ f = Fate.Survive then c
        else if f = Fate.Birth then 1 else 0)
      g.fates g.cells }

/-- Random population, from `GamePython.populate_random`: populate the
cell grid (base class), re-create the ages grid at 0, recompute fates. -/
def populate_random (g : GamePython) (prob : Rat) (draws : Nat → Nat → Rat) :
    GamePython :=
  compute_fates
    { g with
      cells := populate_cells g.width g.height prob draws
      ages := TorusGrid.create g.width g.height 0 }

/-- One step, from `GamePython._step`: apply the stored fates, then
recompute fates for the new grid. -/
def step (g : GamePython) : GamePython :=
  compute_fates (apply_fates g)

/-- Advance, from `GameOfLife.next_generation`: step, then increment the
generation counter. -/
def next_generation (g : GamePython) : GamePython :=
  let g2 := step g
  { g2 with generation := g2.generation + 1 }

/-- Reset, from `GameOfLife.reset`: generation back to 1 and `_init()`,
which re-creates the three grids in their default state.  It takes no
probability and performs no population. -/
def reset (g : GamePython) : GamePython :=
  { g with
    generation := 1
    cells := TorusGrid.create g.width g.height 0
    fates := TorusGrid.create g.width g.height Fate.StayDead
    ages := TorusGrid.create g.width g.height 0 }

/-- Fate accessor, from `GamePython.fate`. -/
def fate (g : GamePython) (row col : Int) : Option Fate :=
  g.fates.get row col

/-- Age accessor, from `GamePython.age`. -/
def age (g : GamePython) (row col : Int) : Option Nat :=
  g.ages.get row col

/-- Modelled from the spec: `is_alive(row, col)` is declared abstract in
game.py and called by the tests, but no `GameOfLife` subclass under the
package implements it; per spec section 4.2 it is a pure read accessor of
the cell grid with wraparound, true exactly on live (value 1) cells. -/
def is_alive (g : GamePython) (row col : Int) : Bool :=
  g.cells.get row col == some 1

/-- Iterated advance: `n` calls of `next_generation`. -/
def advanceN (g : GamePython) : Nat → GamePython
  | 0 => g
  | n + 1 => next_generation (advanceN g n)

/-- Well-formedness of an engine state: positive dimensions and all three
grids of shape `height × width`.  This holds for every state the code can
reach when constructed with positive dimensions. -/
def WF (g : GamePython) : Prop :=
  0 < g.width ∧ 0 < g.height ∧
    g.cells.Shape g.height.toNat g.width.toNat ∧
    g.fates.Shape g.height.toNat g.width.toNat ∧
    g.ages.Shape g.height.toNat g.width.toNat

instance (g : GamePython) : Decidable g.WF := by
  unfold WF; infer_instance

end GamePython

/-- State of the reduced engine `GamePythonLight`: dimensions and
generation from the `GameOfLife` base class, plus the cells grid only. -/
structure GamePythonLight where
  width : Int
  height : Int
  generation : Int
  cells : TorusGrid Nat
deriving DecidableEq, Repr

namespace GamePythonLight

/-- Construction, from `GameOfLife.__init__` and `BaseGamePython._init`. -/
def new (width height : Int) : GamePythonLight :=
  { width := width
    height := height
    generation := 1
    cells := TorusGrid.create width height 0 }

/-- Random population, from `BaseGamePython.populate_random`. -/
def populate_random (g : GamePythonLight) (prob : Rat) (draws : Nat → Nat → Rat) :
    GamePythonLight :=
  { g with cells := populate_cells g.width g.height prob draws }

/-- Next-generation value of one cell, the body of the per-cell update
in `GamePythonLight._step`: live next generation iff currently dead with
exactly 3 live neighbors or currently alive with 2 or 3 live neighbors. -/
def newCellOf (cells : TorusGrid Nat) (row col : Int) : Nat :=
  let num_neighbors := get_number_neighbors cells row col
  if (cells.get row col == some 0 && num_neighbors == 3) ||
     (cells.get row col == some 1 && (2 ≤ num_neighbors && num_neighbors ≤ 3)) then 1
  else 0

/-- One step, from `GamePythonLight._step`: a fresh cell grid where a
cell is live next generation iff it is dead with exactly 3 live neighbors
or alive with 2 or 3 live neighbors.  The pass writes a freshly created
grid and reads only the old one. -/
def step (g : GamePythonLight) : GamePythonLight :=
  { g with
    cells := TorusGrid.build g.height.toNat g.width.toNat fun r c =>
      newCellOf g.cells r c }

/-- Advance, from `GameOfLife.next_generation`. -/
def next_generation (g : GamePythonLight) : GamePythonLight :=
  let g2 := step g
  { g2 with generation := g2.generation + 1 }

/-- Synthesized fate accessor, from `GamePythonLight.fate`: `Survive`
for live cells, `StayDead` for dead ones. -/
def fate (g : GamePythonLight) (row col : Int) : Fate :=
  if g.cells.get row col == some 1 then Fate.Survive else Fate.StayDead

/-- Synthesized age accessor, from `GamePythonLight.age`: the constant
sentinel 1000. -/
def age (_ : GamePythonLight) (_ _ : Int) : Nat := 1000

/-- Iterated advance: `n` calls of `next_generation`. -/
def advanceN (g : GamePythonLight) : Nat → GamePythonLight
  | 0 => g
  | n + 1 => next_generation (advanceN g n)

end GamePythonLight

end GameOfLife


namespace GameOfLife

/-- Entry of a grid at in-range indices `(i, j)`, used to state the
pointwise characterizations below. -/
def TorusGrid.entry (g : TorusGrid α) (i j : Nat) : Option α :=
  g.rows[i]?.bind fun row => row[j]?

/-- The 8 coordinates of the Moore neighborhood of `(row, col)` as the
spec lists them: the surrounding cells, the cell itself excluded. -/
def mooreNeighbors (row col : Int) : List (Int × Int) :=
  [(row - 1, col - 1), (row - 1, col), (row - 1, col + 1),
   (row, col - 1), (row, col + 1),
   (row + 1, col - 1), (row + 1, col), (row + 1, col + 1)]

/-- Spec-side live-neighbor count: the number of live cells among the 8
Moore neighbors, each coordinate resolved via toroidal wraparound. -/
def liveNeighborCount (cells : TorusGrid Nat) (row col : Int) : Nat :=
  (mooreNeighbors row col).countP fun p => cells.get p.1 p.2 == some 1

/-- Spec-side fate classification: dead with exactly 3 live neighbors is
a Birth, dead otherwise stays dead; alive with fewer than 2 dies by
isolation, with more than 3 dies by overcrowding, with 2 or 3 survives. -/
def specFate (alive : Bool) (n : Nat) : Fate :=
  if alive then
    if n < 2 then Fate.DeathByIsolation
    else if n > 3 then Fate.DeathByOvercrowding
    else Fate.Survive
  else
    if n = 3 then Fate.Birth else Fate.StayDead

/-- The stored fates grid is exactly the recomputation pass applied to
the current cells grid.  Both `populate_random` and `step` end with
`compute_fates`, so this holds in every populated state. -/
def GamePython.FatesFresh (g : GamePython) : Prop :=
  g.fates = TorusGrid.build g.height.toNat g.width.toNat fun r c => GamePython.fateOf g.cells r c

/-- Every readable cell value is 0 or 1. -/
def GamePython.CellsBool (g : GamePython) : Prop :=
  ∀ r c cv, g.cells.get r c = some cv → cv = 0 ∨ cv = 1

/-- Invariant carried along every populated trajectory of the full
engine: well-formed, fates freshly computed, cell values boolean. -/
def GamePython.Good (g : GamePython) : Prop :=
  g.WF ∧ g.FatesFresh ∧ g.CellsBool

/-- The state of the full engine after construction with the given
dimensions, one random population, and `n` advances. -/
def GamePython.trajectory (w h : Int) (prob : Rat) (draws : Nat → Nat → Rat)
    (n : Nat) : GamePython :=
  GamePython.advanceN ((GamePython.new w h).populate_random prob draws) n

/-- The state of the reduced engine after construction with the given
dimensions, one random population, and `n` advances. -/
def GamePythonLight.trajectory (w h : Int) (prob : Rat) (draws : Nat → Nat → Rat)
    (n : Nat) : GamePythonLight :=
  GamePythonLight.advanceN ((GamePythonLight.new w h).populate_random prob draws) n

end GameOfLife

namespace GameOfLife

/-! Arithmetic helpers about euclidean and truncated remainders. -/

theorem emod_toNat_lt (r : Int) (n : Nat) (hn : 0 < n) : (r % (n : Int)).toNat < n := by
  have hne : (n : Int) ≠ 0 := by exact_mod_cast hn.ne'
  have h1 : 0 ≤ r % (n : Int) := Int.emod_nonneg r hne
  have h2 : r % (n : Int) < n := Int.emod_lt_of_pos r (by exact_mod_cast hn)
  omega

theorem emod_toNat_coe (r : Int) (n : Nat) (hn : 0 < n) :
    (((r % (n : Int)).toNat : Nat) : Int) = r % (n : Int) := by
  have hne : (n : Int) ≠ 0 := by exact_mod_cast hn.ne'
  exact Int.toNat_of_nonneg (Int.emod_nonneg r hne)

theorem emod_add_congr {a b n : Int} (h : a % n = b % n) (d : Int) :
    (a + d) % n = (b + d) % n := by
  rw [Int.add_emod, h, ← Int.add_emod]

theorem tmod_wrap (r m : Int) (hm : 0 < m) : ((r.tmod m) + m).tmod m = r % m := by
  rcases le_or_lt 0 r with hr | hr
  · rw [Int.tmod_eq_emod hr hm.le]
    have h1 : 0 ≤ r % m + m := by
      have := Int.emod_nonneg r hm.ne'
      omega
    rw [Int.tmod_eq_emod h1 hm.le, Int.emod_add_emod]
    have : r + m = r + 1 * m := by ring
    rw [this, Int.add_mul_emod_self]
  · have hneg : 0 ≤ -r := by omega
    have h1 : r.tmod m = -((-r).tmod m) := by
      rw [Int.tmod_def, Int.tmod_def, Int.neg_tdiv]
      ring
    rw [Int.tmod_eq_emod hneg hm.le] at h1
    have hu0 : 0 ≤ (-r) % m := Int.emod_nonneg _ hm.ne'
    have hu1 : (-r) % m < m := Int.emod_lt_of_pos _ hm
    rw [h1]
    have hsum : 0 ≤ -((-r) % m) + m := by omega
    rw [Int.tmod_eq_emod hsum hm.le]
    have hdecomp : -r = m * ((-r) / m) + (-r) % m := (Int.ediv_add_emod (-r) m).symm
    have hr2 : r = (-((-r) % m) + m) + m * (-((-r) / m) - 1) := by
      have hmul : m * (-((-r) / m) - 1) = -(m * ((-r) / m)) - m := by ring
      omega
    conv_rhs => rw [hr2]
    rw [Int.add_mul_emod_self_left]

end GameOfLife

namespace GameOfLife

/-! Pointwise characterization of grid reads and writes. -/

theorem TorusGrid.shape_build (h w : Nat) (f : Nat → Nat → α) :
    (TorusGrid.build h w f).Shape h w := by
  constructor
  · simp [TorusGrid.build]
  · intro row hrow
    simp only [TorusGrid.build, List.mem_map] at hrow
    obtain ⟨r, _, rfl⟩ := hrow
    simp

theorem TorusGrid.shape_create (width height : Int) (init : α) :
    (TorusGrid.create width height init).Shape height.toNat width.toNat := by
  constructor
  · simp [TorusGrid.create]
  · intro row hrow
    simp only [TorusGrid.create, List.mem_replicate] at hrow
    rw [hrow.2]
    simp

theorem TorusGrid.shape_zip {g1 : TorusGrid α} {g2 : TorusGrid β} {h w : Nat}
    (f : α → β → γ) (hS1 : g1.Shape h w) (hS2 : g2.Shape h w) :
    (TorusGrid.zip f g1 g2).Shape h w := by
  obtain ⟨hl1, hr1⟩ := hS1
  obtain ⟨hl2, hr2⟩ := hS2
  constructor
  · simp [TorusGrid.zip, List.length_zipWith, hl1, hl2]
  · intro row hrow
    simp only [TorusGrid.zip] at hrow
    rw [List.mem_iff_getElem?] at hrow
    obtain ⟨i, hi⟩ := hrow
    rcases h1 : g1.rows[i]? with _ | r1
    · simp [List.getElem?_zipWith, h1] at hi
    rcases h2 : g2.rows[i]? with _ | r2
    · simp [List.getElem?_zipWith, h1, h2] at hi
    have : row = List.zipWith f r1 r2 := by
      simp [List.getElem?_zipWith, h1, h2] at hi
      exact hi.symm
    rw [this, List.length_zipWith, hr1 r1 (List.getElem?_mem h1), hr2 r2 (List.getElem?_mem h2)]
    simp

theorem TorusGrid.entry_build {h w : Nat} (f : Nat → Nat → α) {i j : Nat}
    (hi : i < h) (hj : j < w) :
    (TorusGrid.build h w f).entry i j = some (f i j) := by
  simp [TorusGrid.build, TorusGrid.entry, List.getElem?_map, List.getElem?_range, hi, hj]

theorem TorusGrid.entry_zip {g1 : TorusGrid α} {g2 : TorusGrid β} (f : α → β → γ)
    {i j : Nat} {a : α} {b : β}
    (h1 : g1.entry i j = some a) (h2 : g2.entry i j = some b) :
    (TorusGrid.zip f g1 g2).entry i j = some (f a b) := by
  simp only [TorusGrid.entry, Option.bind_eq_some] at h1 h2
  obtain ⟨r1, hr1, ha⟩ := h1
  obtain ⟨r2, hr2, hb⟩ := h2
  simp only [TorusGrid.zip, TorusGrid.entry, List.getElem?_zipWith, hr1, hr2,
    Option.bind_eq_some]
  exact ⟨List.zipWith f r1 r2, rfl, by simp [List.getElem?_zipWith, ha, hb]⟩

theorem TorusGrid.entry_isSome {g : TorusGrid α} {h w : Nat} (hS : g.Shape h w)
    {i j : Nat} (hi : i < h) (hj : j < w) :
    ∃ a, g.entry i j = some a := by
  obtain ⟨hl, hr⟩ := hS
  have hi2 : i < g.rows.length := by omega
  have hrow : g.rows[i]? = some g.rows[i] := List.getElem?_eq_getElem hi2
  have hlen : g.rows[i].length = w := hr _ (List.getElem?_mem hrow)
  have hj2 : j < g.rows[i].length := by omega
  exact ⟨g.rows[i][j], by
    simp only [TorusGrid.entry, hrow, Option.bind_eq_some]
    exact ⟨g.rows[i], rfl, List.getElem?_eq_getElem hj2⟩⟩

theorem TorusGrid.get_eq_entry {g : TorusGrid α} {h w : Nat} (hS : g.Shape h w)
    (hh : 0 < h) (_hw : 0 < w) (r c : Int) :
    g.get r c = g.entry (r % (h : Int)).toNat (c % (w : Int)).toNat := by
  obtain ⟨hl, hr⟩ := hS
  have hi : (r % (h : Int)).toNat < h := emod_toNat_lt r h hh
  have hi2 : (r % (h : Int)).toNat < g.rows.length := by omega
  have hrow : g.rows[(r % (h : Int)).toNat]? = some g.rows[(r % (h : Int)).toNat] :=
    List.getElem?_eq_getElem hi2
  have hlen : g.rows[(r % (h : Int)).toNat].length = w :=
    hr _ (List.getElem?_mem hrow)
  unfold TorusGrid.get CircularList.get TorusGrid.entry
  rw [hl, hrow]
  simp only [Option.some_bind, hlen]

theorem TorusGrid.get_some {g : TorusGrid α} {h w : Nat} (hS : g.Shape h w)
    (hh : 0 < h) (hw : 0 < w) (r c : Int) :
    ∃ a, g.get r c = some a := by
  rw [TorusGrid.get_eq_entry hS hh hw]
  exact TorusGrid.entry_isSome hS (emod_toNat_lt r h hh) (emod_toNat_lt c w hw)

theorem TorusGrid.get_wrap {g : TorusGrid α} {h w : Nat} (hS : g.Shape h w)
    (hh : 0 < h) (hw : 0 < w) {r r' c c' : Int}
    (hr : r % (h : Int) = r' % (h : Int)) (hc : c % (w : Int) = c' % (w : Int)) :
    g.get r c = g.get r' c' := by
  rw [TorusGrid.get_eq_entry hS hh hw, TorusGrid.get_eq_entry hS hh hw, hr, hc]

theorem TorusGrid.get_create {width height : Int} (init : α)
    (hw : 0 < width) (hh : 0 < height) (r c : Int) :
    (TorusGrid.create width height init).get r c = some init := by
  have hS := TorusGrid.shape_create width height init
  have hh2 : 0 < height.toNat := by omega
  have hw2 : 0 < width.toNat := by omega
  rw [TorusGrid.get_eq_entry hS hh2 hw2]
  have hi := emod_toNat_lt r height.toNat hh2
  have hj := emod_toNat_lt c width.toNat hw2
  simp only [TorusGrid.create, TorusGrid.entry, List.getElem?_replicate, hi, if_true,
    Option.some_bind, hj]

end GameOfLife

namespace GameOfLife

/-! The generator of neighbor coordinates produces exactly the 8 Moore
neighbors, and neighbor counting only depends on the wrapped position. -/

theorem coords_neighbors_eq (row col : Int) :
    coords_neighbors row col = mooreNeighbors row col := by
  have h3 : List.range 3 = [0, 1, 2] := rfl
  have e0 : row - 1 + (0 : Nat) = row - 1 := by omega
  have e1 : row - 1 + (1 : Nat) = row := by omega
  have e2 : row - 1 + (2 : Nat) = row + 1 := by omega
  have f0 : col - 1 + (0 : Nat) = col - 1 := by omega
  have f1 : col - 1 + (1 : Nat) = col := by omega
  have f2 : col - 1 + (2 : Nat) = col + 1 := by omega
  simp only [coords_neighbors, h3, List.flatMap_cons, List.flatMap_nil, List.append_nil,
    e0, e1, e2, f0, f1, f2, mooreNeighbors]
  have hne1 : ¬(row = row - 1) := by omega
  have hne2 : ¬(col = col - 1) := by omega
  norm_num [Prod.ext_iff]
  simp [hne1, hne2]

theorem get_number_neighbors_eq (cells : TorusGrid Nat) (row col : Int) :
    get_number_neighbors cells row col = liveNeighborCount cells row col := by
  rw [get_number_neighbors, liveNeighborCount, coords_neighbors_eq]

theorem liveNeighborCount_wrap {cells : TorusGrid Nat} {h w : Nat}
    (hS : cells.Shape h w) (hh : 0 < h) (hw : 0 < w) {r r' c c' : Int}
    (hr : r % (h : Int) = r' % (h : Int)) (hc : c % (w : Int) = c' % (w : Int)) :
    liveNeighborCount cells r c = liveNeighborCount cells r' c' := by
  have key : ∀ dr dc : Int,
      cells.get (r + dr) (c + dc) = cells.get (r' + dr) (c' + dc) := fun dr dc =>
    TorusGrid.get_wrap hS hh hw (emod_add_congr hr dr) (emod_add_congr hc dc)
  have k1 : cells.get (r - 1) (c - 1) = cells.get (r' - 1) (c' - 1) := by
    have := key (-1) (-1); simpa [sub_eq_add_neg] using this
  have k2 : cells.get (r - 1) c = cells.get (r' - 1) c' := by
    have := key (-1) 0; simpa [sub_eq_add_neg] using this
  have k3 : cells.get (r - 1) (c + 1) = cells.get (r' - 1) (c' + 1) := by
    have := key (-1) 1; simpa [sub_eq_add_neg] using this
  have k4 : cells.get r (c - 1) = cells.get r' (c' - 1) := by
    have := key 0 (-1); simpa [sub_eq_add_neg] using this
  have k5 : cells.get r (c + 1) = cells.get r' (c' + 1) := by
    have := key 0 1; simpa using this
  have k6 : cells.get (r + 1) (c - 1) = cells.get (r' + 1) (c' - 1) := by
    have := key 1 (-1); simpa [sub_eq_add_neg] using this
  have k7 : cells.get (r + 1) c = cells.get (r' + 1) c' := by
    have := key 1 0; simpa using this
  have k8 : cells.get (r + 1) (c + 1) = cells.get (r' + 1) (c' + 1) := by
    have := key 1 1; simpa using this
  simp only [liveNeighborCount, mooreNeighbors, List.countP_cons, List.countP_nil,
    k1, k2, k3, k4, k5, k6, k7, k8]

theorem GamePython.fateOf_wrap {cells : TorusGrid Nat} {h w : Nat}
    (hS : cells.Shape h w) (hh : 0 < h) (hw : 0 < w) {r r' c c' : Int}
    (hr : r % (h : Int) = r' % (h : Int)) (hc : c % (w : Int) = c' % (w : Int)) :
    GamePython.fateOf cells r c = GamePython.fateOf cells r' c' := by
  have hcenter : cells.get r c = cells.get r' c' := TorusGrid.get_wrap hS hh hw hr hc
  have hcount : get_number_neighbors cells r c = get_number_neighbors cells r' c' := by
    rw [get_number_neighbors_eq, get_number_neighbors_eq]
    exact liveNeighborCount_wrap hS hh hw hr hc
  rw [GamePython.fateOf, GamePython.fateOf, hcenter, hcount]

end GameOfLife

namespace GameOfLife

namespace GamePython

/-! Field bookkeeping and well-formedness along the engine's operations. -/

@[simp] theorem width_compute_fates (g : GamePython) : (compute_fates g).width = g.width := rfl

@[simp] theorem height_compute_fates (g : GamePython) : (compute_fates g).height = g.height := rfl

@[simp] theorem cells_compute_fates (g : GamePython) : (compute_fates g).cells = g.cells := rfl

@[simp] theorem ages_compute_fates (g : GamePython) : (compute_fates g).ages = g.ages := rfl

@[simp] theorem width_apply_fates (g : GamePython) : (apply_fates g).width = g.width := rfl

@[simp] theorem height_apply_fates (g : GamePython) : (apply_fates g).height = g.height := rfl

@[simp] theorem fates_apply_fates (g : GamePython) : (apply_fates g).fates = g.fates := rfl

@[simp] theorem width_next_generation (g : GamePython) :
    (next_generation g).width = g.width := rfl

@[simp] theorem height_next_generation (g : GamePython) :
    (next_generation g).height = g.height := rfl

@[simp] theorem width_advanceN (g : GamePython) (n : Nat) :
    (advanceN g n).width = g.width := by
  induction n with
  | zero => rfl
  | succ n ih => simp [advanceN, ih]

@[simp] theorem height_advanceN (g : GamePython) (n : Nat) :
    (advanceN g n).height = g.height := by
  induction n with
  | zero => rfl
  | succ n ih => simp [advanceN, ih]

theorem wf_new {w h : Int} (hw : 0 < w) (hh : 0 < h) : (new w h).WF :=
  ⟨hw, hh, TorusGrid.shape_create w h 0, TorusGrid.shape_create w h Fate.StayDead,
    TorusGrid.shape_create w h 0⟩

theorem wf_compute_fates {g : GamePython} (hWF : g.WF) : (compute_fates g).WF := by
  obtain ⟨hw, hh, hc, hf, ha⟩ := hWF
  exact ⟨hw, hh, hc, TorusGrid.shape_build _ _ _, ha⟩

theorem wf_apply_fates {g : GamePython} (hWF : g.WF) : (apply_fates g).WF := by
  obtain ⟨hw, hh, hc, hf, ha⟩ := hWF
  exact ⟨hw, hh, TorusGrid.shape_zip _ hf hc, hf, TorusGrid.shape_zip _ hf ha⟩

theorem wf_populate_random {g : GamePython} (hw : 0 < g.width) (hh : 0 < g.height)
    (prob : Rat) (draws : Nat → Nat → Rat) : (populate_random g prob draws).WF := by
  refine ⟨hw, hh, ?_, ?_, ?_⟩
  · exact TorusGrid.shape_build _ _ _
  · exact TorusGrid.shape_build _ _ _
  · exact TorusGrid.shape_create _ _ _

theorem wf_step {g : GamePython} (hWF : g.WF) : (step g).WF :=
  wf_compute_fates (wf_apply_fates hWF)

theorem wf_next_generation {g : GamePython} (hWF : g.WF) : (next_generation g).WF := by
  obtain ⟨hw, hh, hc, hf, ha⟩ := wf_step hWF
  exact ⟨hw, hh, hc, hf, ha⟩

theorem wf_advanceN {g : GamePython} (hWF : g.WF) (n : Nat) : (advanceN g n).WF := by
  induction n with
  | zero => exact hWF
  | succ n ih => exact wf_next_generation ih

end GamePython

end GameOfLife

namespace GameOfLife

namespace GamePython

/-! Pointwise readings of the three passes. -/

theorem fates_build_get {cells : TorusGrid Nat} {hN wN : Nat}
    (hS : cells.Shape hN wN) (hh : 0 < hN) (hw : 0 < wN) (r c : Int) :
    (TorusGrid.build hN wN fun i j => fateOf cells i j).get r c =
      some (fateOf cells r c) := by
  have hi := emod_toNat_lt r hN hh
  have hj := emod_toNat_lt c wN hw
  rw [TorusGrid.get_eq_entry (TorusGrid.shape_build hN wN _) hh hw,
    TorusGrid.entry_build _ hi hj]
  congr 1
  apply fateOf_wrap hS hh hw
  · rw [emod_toNat_coe r hN hh, Int.emod_emod_of_dvd r dvd_rfl]
  · rw [emod_toNat_coe c wN hw, Int.emod_emod_of_dvd c dvd_rfl]

theorem fates_get_compute {g : GamePython} (hWF : g.WF) (r c : Int) :
    (compute_fates g).fates.get r c = some (fateOf g.cells r c) := by
  obtain ⟨hw, hh, hc, hf, ha⟩ := hWF
  exact fates_build_get hc (by omega) (by omega) r c

theorem fates_get_of_fresh {g : GamePython} (hWF : g.WF) (hFresh : g.FatesFresh)
    (r c : Int) : g.fates.get r c = some (fateOf g.cells r c) := by
  obtain ⟨hw, hh, hc, hf, ha⟩ := hWF
  rw [hFresh]
  exact fates_build_get hc (by omega) (by omega) r c

theorem ages_get_apply {g : GamePython} (hWF : g.WF) {r c : Int} {fv : Fate} {av : Nat}
    (hf : g.fates.get r c = some fv) (ha : g.ages.get r c = some av) :
    (apply_fates g).ages.get r c =
      some (if fv = Fate.StayDead ∨ fv = Fate.Survive then av + 1 else 0) := by
  obtain ⟨hw, hh, hc, hfS, haS⟩ := hWF
  have hh2 : 0 < g.height.toNat := by omega
  have hw2 : 0 < g.width.toNat := by omega
  rw [TorusGrid.get_eq_entry hfS hh2 hw2] at hf
  rw [TorusGrid.get_eq_entry haS hh2 hw2] at ha
  have hag : (apply_fates g).ages = TorusGrid.zip
      (fun f a => if f = Fate.StayDead ∨ f = Fate.Survive then a + 1 else 0)
      g.fates g.ages := rfl
  rw [hag, TorusGrid.get_eq_entry (TorusGrid.shape_zip _ hfS haS) hh2 hw2]
  exact TorusGrid.entry_zip _ hf ha

theorem cells_get_apply {g : GamePython} (hWF : g.WF) {r c : Int} {fv : Fate} {cv : Nat}
    (hf : g.fates.get r c = some fv) (hc : g.cells.get r c = some cv) :
    (apply_fates g).cells.get r c =
      some (if fv = Fate.StayDead ∨ fv = Fate.Survive then cv
        else if fv = Fate.Birth then 1 else 0) := by
  obtain ⟨hw, hh, hcS, hfS, haS⟩ := hWF
  have hh2 : 0 < g.height.toNat := by omega
  have hw2 : 0 < g.width.toNat := by omega
  rw [TorusGrid.get_eq_entry hfS hh2 hw2] at hf
  rw [TorusGrid.get_eq_entry hcS hh2 hw2] at hc
  have hcg : (apply_fates g).cells = TorusGrid.zip
      (fun f c => if f = Fate.StayDead ∨ f = Fate.Survive then c
        else if f = Fate.Birth then 1 else 0)
      g.fates g.cells := rfl
  rw [hcg, TorusGrid.get_eq_entry (TorusGrid.shape_zip _ hfS hcS) hh2 hw2]
  exact TorusGrid.entry_zip _ hf hc

theorem cells_get_populate_cells {w h : Int} (hw : 0 < w) (hh : 0 < h)
    (prob : Rat) (draws : Nat → Nat → Rat) (r c : Int) :
    (populate_cells w h prob draws).get r c =
      some (if draws (r % ((h.toNat : Nat) : Int)).toNat (c % ((w.toNat : Nat) : Int)).toNat ≤ prob
        then 1 else 0) := by
  have hh2 : 0 < h.toNat := by omega
  have hw2 : 0 < w.toNat := by omega
  have hi := emod_toNat_lt r h.toNat hh2
  have hj := emod_toNat_lt c w.toNat hw2
  rw [populate_cells, TorusGrid.get_eq_entry (TorusGrid.shape_build _ _ _) hh2 hw2,
    TorusGrid.entry_build _ hi hj]

theorem cells_populate_random (g : GamePython) (prob : Rat) (draws : Nat → Nat → Rat) :
    (populate_random g prob draws).cells = populate_cells g.width g.height prob draws := rfl

theorem ages_get_populate {g : GamePython} (hw : 0 < g.width) (hh : 0 < g.height)
    (prob : Rat) (draws : Nat → Nat → Rat) (r c : Int) :
    (populate_random g prob draws).ages.get r c = some 0 := by
  have : (populate_random g prob draws).ages = TorusGrid.create g.width g.height 0 := rfl
  rw [this]
  exact TorusGrid.get_create 0 hw hh r c

/-! The trajectory invariant: freshly computed fates and boolean cells. -/

theorem fresh_compute_fates (g : GamePython) : (compute_fates g).FatesFresh := rfl

theorem fresh_populate_random (g : GamePython) (prob : Rat) (draws : Nat → Nat → Rat) :
    (populate_random g prob draws).FatesFresh := rfl

theorem fresh_next_generation (g : GamePython) : (next_generation g).FatesFresh := rfl

theorem cells_bool_populate_random {g : GamePython} (hw : 0 < g.width) (hh : 0 < g.height)
    (prob : Rat) (draws : Nat → Nat → Rat) : (populate_random g prob draws).CellsBool := by
  intro r c cv hget
  rw [cells_populate_random, cells_get_populate_cells hw hh] at hget
  rcases Decidable.em
    (draws (r % ((g.height.toNat : Nat) : Int)).toNat (c % ((g.width.toNat : Nat) : Int)).toNat ≤ prob) with
    hd | hd
  · rw [if_pos hd] at hget
    exact Or.inr (Option.some.inj hget).symm
  · rw [if_neg hd] at hget
    exact Or.inl (Option.some.inj hget).symm

theorem cells_bool_next_generation {g : GamePython} (hWF : g.WF) (hB : g.CellsBool) :
    (next_generation g).CellsBool := by
  intro r c cv hget
  obtain ⟨hw, hh, hcS, hfS, haS⟩ := hWF
  have hh2 : 0 < g.height.toNat := by omega
  have hw2 : 0 < g.width.toNat := by omega
  obtain ⟨fv, hf⟩ := TorusGrid.get_some hfS hh2 hw2 r c
  obtain ⟨cv0, hc⟩ := TorusGrid.get_some hcS hh2 hw2 r c
  have happ := cells_get_apply ⟨hw, hh, hcS, hfS, haS⟩ hf hc
  have hstep : (next_generation g).cells.get r c = (apply_fates g).cells.get r c := rfl
  rw [hstep, happ] at hget
  have hcv0 := hB r c cv0 hc
  rcases Decidable.em (fv = Fate.StayDead ∨ fv = Fate.Survive) with hfd | hfd
  · rw [if_pos hfd] at hget
    have := Option.some.inj hget
    omega
  · rw [if_neg hfd] at hget
    rcases Decidable.em (fv = Fate.Birth) with hfb | hfb
    · rw [if_pos hfb] at hget
      exact Or.inr (Option.some.inj hget).symm
    · rw [if_neg hfb] at hget
      exact Or.inl (Option.some.inj hget).symm

theorem good_populate_random {g : GamePython} (hw : 0 < g.width) (hh : 0 < g.height)
    (prob : Rat) (draws : Nat → Nat → Rat) : (populate_random g prob draws).Good :=
  ⟨wf_populate_random hw hh prob draws, fresh_populate_random g prob draws,
    cells_bool_populate_random hw hh prob draws⟩

theorem good_next_generation {g : GamePython} (hG : g.Good) : (next_generation g).Good :=
  ⟨wf_next_generation hG.1, fresh_next_generation g,
    cells_bool_next_generation hG.1 hG.2.2⟩

theorem good_advanceN {g : GamePython} (hG : g.Good) (n : Nat) : (advanceN g n).Good := by
  induction n with
  | zero => exact hG
  | succ n ih => exact good_next_generation ih

end GamePython

end GameOfLife

namespace GameOfLife

theorem fateOf_eq_specFate {cells : TorusGrid Nat} {r c : Int} {cv : Nat}
    (hget : cells.get r c = some cv) (hcv : cv = 0 ∨ cv = 1) :
    GamePython.fateOf cells r c = specFate (cv == 1) (get_number_neighbors cells r c) := by
  rcases hcv with rfl | rfl
  · simp [GamePython.fateOf, specFate, hget]
  · simp [GamePython.fateOf, specFate, hget]

theorem TorusGrid.set_isSome {g : TorusGrid α} {h w : Nat} (hS : g.Shape h w)
    (hh : 0 < h) (hw : 0 < w) (r c : Int) (v : α) : (g.set r c v).isSome = true := by
  obtain ⟨hl, hr⟩ := hS
  have hi : (r % ((h : Nat) : Int)).toNat < g.rows.length := by
    rw [hl]; exact emod_toNat_lt r h hh
  have hrow : g.rows[(r % ((h : Nat) : Int)).toNat]? =
      some g.rows[(r % ((h : Nat) : Int)).toNat] := List.getElem?_eq_getElem hi
  have hlen : g.rows[(r % ((h : Nat) : Int)).toNat].length = w :=
    hr _ (List.getElem?_mem hrow)
  unfold TorusGrid.set CircularList.get CircularList.set
  rw [hl, hrow]
  simp only [hlen]
  rw [if_neg (by omega)]
  rfl

theorem GamePython.generation_advanceN (g : GamePython) (n : Nat) :
    (GamePython.advanceN g n).generation = g.generation + n := by
  induction n with
  | zero => simp [GamePython.advanceN]
  | succ n ih =>
    have : (GamePython.advanceN g (n + 1)).generation =
        (GamePython.advanceN g n).generation + 1 := rfl
    rw [this, ih]
    push_cast
    ring

/-- C1: for every well-formed grid state and every cell location (r, c)
with a boolean cell value, the fate-recomputation pass leaves the cell
grid untouched and assigns the fate determined by the cell's current
state and its live-neighbor count over the 8-cell Moore neighborhood
with toroidal wraparound (the cell itself excluded), per the
birth / stay-dead / isolation / overcrowding / survival rule; the count
is taken from the grid as it stood at the start of the pass. -/
theorem compute_fates_rule_correct (g : GamePython) (hWF : g.WF) (r c : Int) (cv : Nat)
    (hget : g.cells.get r c = some cv) (hcv : cv = 0 ∨ cv = 1) :
    (GamePython.compute_fates g).cells = g.cells ∧
    (GamePython.compute_fates g).fates.get r c =
      some (specFate (cv == 1) (liveNeighborCount g.cells r c)) := by
  refine ⟨rfl, ?_⟩
  rw [GamePython.fates_get_compute hWF, fateOf_eq_specFate hget hcv,
    get_number_neighbors_eq]

/-- Witness for C1 at a concrete state: the freshly constructed 2 by 2
engine, at location (0, 0). -/
theorem compute_fates_rule_correct_witness :
    (GamePython.new 2 2).WF ∧ (GamePython.new 2 2).cells.get 0 0 = some 0 ∧
      ((GamePython.compute_fates (GamePython.new 2 2)).cells = (GamePython.new 2 2).cells ∧
        (GamePython.compute_fates (GamePython.new 2 2)).fates.get 0 0 =
          some (specFate ((0 : Nat) == 1) (liveNeighborCount (GamePython.new 2 2).cells 0 0))) :=
  ⟨by decide, by decide,
    compute_fates_rule_correct (GamePython.new 2 2) (by decide) 0 0 0 (by decide) (by decide)⟩

/-- C3: on a well-formed toroidal grid of width w > 0 and height h > 0,
reading at (r, c) equals reading at (r + k*h, c + k*w) for every integer
k; every integer coordinate pair resolves to the unique backing cell at
row ((r % h) + h) % h and column ((c % w) + w) % w (written with the
truncated remainder, as in the spec's formula); and reads and writes
never fail for any integer input. -/
theorem torus_wraparound_invariance {α : Type} (g : TorusGrid α) (h w : Nat)
    (hS : g.Shape h w) (hh : 0 < h) (hw : 0 < w) (r c k : Int) (v : α) :
    g.get r c = g.get (r + k * h) (c + k * w) ∧
    g.get r c = g.entry (((r.tmod h) + h).tmod h).toNat (((c.tmod w) + w).tmod w).toNat ∧
    (g.get r c).isSome = true ∧
    (g.set r c v).isSome = true := by
  have hhz : (0 : Int) < h := by exact_mod_cast hh
  have hwz : (0 : Int) < w := by exact_mod_cast hw
  refine ⟨?_, ?_, ?_, TorusGrid.set_isSome hS hh hw r c v⟩
  · exact TorusGrid.get_wrap hS hh hw (Int.add_mul_emod_self).symm (Int.add_mul_emod_self).symm
  · rw [tmod_wrap r h hhz, tmod_wrap c w hwz]
    exact TorusGrid.get_eq_entry hS hh hw r c
  · obtain ⟨a, ha⟩ := TorusGrid.get_some hS hh hw r c
    rw [ha]
    rfl

/-- Witness for C3 at a concrete grid: a 2 by 2 grid read at (5, -3)
with period multiplier 7. -/
theorem torus_wraparound_invariance_witness :
    (⟨[[10, 20], [30, 40]]⟩ : TorusGrid Nat).Shape 2 2 ∧
      ((⟨[[10, 20], [30, 40]]⟩ : TorusGrid Nat).get 5 (-3) =
          (⟨[[10, 20], [30, 40]]⟩ : TorusGrid Nat).get (5 + 7 * 2) (-3 + 7 * 2) ∧
        (⟨[[10, 20], [30, 40]]⟩ : TorusGrid Nat).get 5 (-3) =
          (⟨[[10, 20], [30, 40]]⟩ : TorusGrid Nat).entry
            ((((5 : Int).tmod 2) + 2).tmod 2).toNat ((((-3 : Int).tmod 2) + 2).tmod 2).toNat ∧
        ((⟨[[10, 20], [30, 40]]⟩ : TorusGrid Nat).get 5 (-3)).isSome = true ∧
        ((⟨[[10, 20], [30, 40]]⟩ : TorusGrid Nat).set 5 (-3) 99).isSome = true) :=
  ⟨by decide, torus_wraparound_invariance _ 2 2 (by decide) (by decide) (by decide) 5 (-3) 7 99⟩

/-- C6: the generation counter starts at 1 at construction, is
incremented by exactly 1 by each advance and is unchanged by
populate_random, so after n advances from a fresh construction or a
reset it equals 1 + n, and reset sets it back to 1. -/
theorem generation_counter_correct (w h : Int) (g : GamePython) (prob : Rat)
    (draws : Nat → Nat → Rat) (n : Nat) :
    (GamePython.new w h).generation = 1 ∧
    (GamePython.next_generation g).generation = g.generation + 1 ∧
    (GamePython.reset g).generation = 1 ∧
    (GamePython.populate_random g prob draws).generation = g.generation ∧
    (GamePython.advanceN (GamePython.new w h) n).generation = 1 + n ∧
    (GamePython.advanceN (GamePython.reset g) n).generation = 1 + n := by
  refine ⟨rfl, rfl, rfl, rfl, ?_, ?_⟩
  · rw [GamePython.generation_advanceN]
    rfl
  · rw [GamePython.generation_advanceN]
    rfl

end GameOfLife

namespace GameOfLife

/-- On a good state, the stored fate of a live cell is `Survive` or one
of the two deaths, and the stored fate of a dead cell is `StayDead` or
`Birth`: the fates grid always classifies the upcoming transition of the
current cell grid. -/
theorem GamePython.fate_partition_of_good {g : GamePython} (hG : g.Good)
    (r c : Int) (cv : Nat) (hc : g.cells.get r c = some cv) :
    (cv = 1 ∧ (g.fates.get r c = some Fate.Survive ∨
        g.fates.get r c = some Fate.DeathByIsolation ∨
        g.fates.get r c = some Fate.DeathByOvercrowding)) ∨
    (cv = 0 ∧ (g.fates.get r c = some Fate.StayDead ∨
        g.fates.get r c = some Fate.Birth)) := by
  obtain ⟨hWF, hFresh, hBool⟩ := hG
  have hfate := GamePython.fates_get_of_fresh hWF hFresh r c
  rcases hBool r c cv hc with rfl | rfl
  · refine Or.inr ⟨rfl, ?_⟩
    have hdead : GamePython.fateOf g.cells r c =
        if get_number_neighbors g.cells r c = 3 then Fate.Birth else Fate.StayDead := by
      simp [GamePython.fateOf, hc]
    rw [hdead] at hfate
    rcases Decidable.em (get_number_neighbors g.cells r c = 3) with hn | hn
    · rw [if_pos hn] at hfate
      exact Or.inr hfate
    · rw [if_neg hn] at hfate
      exact Or.inl hfate
  · refine Or.inl ⟨rfl, ?_⟩
    have halive : GamePython.fateOf g.cells r c =
        if get_number_neighbors g.cells r c < 2 then Fate.DeathByIsolation
        else if get_number_neighbors g.cells r c > 3 then Fate.DeathByOvercrowding
        else Fate.Survive := by
      simp [GamePython.fateOf, hc]
    rw [halive] at hfate
    rcases Decidable.em (get_number_neighbors g.cells r c < 2) with hn | hn
    · rw [if_pos hn] at hfate
      exact Or.inr (Or.inl hfate)
    · rw [if_neg hn] at hfate
      rcases Decidable.em (get_number_neighbors g.cells r c > 3) with hm | hm
      · rw [if_pos hm] at hfate
        exact Or.inr (Or.inr hfate)
      · rw [if_neg hm] at hfate
        exact Or.inl hfate

/-- C10: along every populated trajectory of the full engine (any number
of advances after populate_random), a cell is alive exactly when its
stored fate is Survive, DeathByIsolation or DeathByOvercrowding, and
dead exactly when its stored fate is StayDead or Birth. -/
theorem fates_classify_current_grid (w h : Int) (prob : Rat) (draws : Nat → Nat → Rat)
    (hw : 0 < w) (hh : 0 < h) (n : Nat) (r c : Int) (cv : Nat) (fv : Fate)
    (hc : (GamePython.trajectory w h prob draws n).cells.get r c = some cv)
    (hf : (GamePython.trajectory w h prob draws n).fates.get r c = some fv) :
    ((cv = 1) ↔ (fv = Fate.Survive ∨ fv = Fate.DeathByIsolation ∨
        fv = Fate.DeathByOvercrowding)) ∧
    ((cv = 0) ↔ (fv = Fate.StayDead ∨ fv = Fate.Birth)) := by
  have hG : (GamePython.trajectory w h prob draws n).Good :=
    GamePython.good_advanceN (GamePython.good_populate_random hw hh prob draws) n
  rcases GamePython.fate_partition_of_good hG r c cv hc with ⟨rfl, hor⟩ | ⟨rfl, hor⟩ <;>
    rcases hor with h1 | h1 <;>
      first
        | (rw [hf] at h1
           have hv := Option.some.inj h1
           subst hv
           constructor <;> constructor <;> intro hx <;> simp_all)
        | (rcases h1 with h1 | h1 <;>
            rw [hf] at h1 <;>
              (have hv := Option.some.inj h1
               subst hv
               constructor <;> constructor <;> intro hx <;> simp_all))

/-- Witness for C10 at a concrete trajectory: the 1 by 1 engine populated
all-alive, after 0 advances (the single cell is its own torus, has no
live neighbor distinct from... it has 8 wrapped self-neighbors, all
alive, so it is overcrowded). -/
theorem fates_classify_current_grid_witness :
    (0 : Int) < 1 ∧
      (GamePython.trajectory 1 1 1 (fun _ _ => 0) 0).cells.get 0 0 = some 1 ∧
      (GamePython.trajectory 1 1 1 (fun _ _ => 0) 0).fates.get 0 0 =
        some Fate.DeathByOvercrowding ∧
      (((1 : Nat) = 1) ↔ (Fate.DeathByOvercrowding = Fate.Survive ∨
          Fate.DeathByOvercrowding = Fate.DeathByIsolation ∨
          Fate.DeathByOvercrowding = Fate.DeathByOvercrowding)) ∧
      (((1 : Nat) = 0) ↔ (Fate.DeathByOvercrowding = Fate.StayDead ∨
          Fate.DeathByOvercrowding = Fate.Birth)) :=
  ⟨by decide, by decide, by decide,
    fates_classify_current_grid 1 1 1 (fun _ _ => 0) (by decide) (by decide) 0 0 0 1
      Fate.DeathByOvercrowding (by decide) (by decide)⟩

end GameOfLife

namespace GameOfLife

/-- C5 counterexample: a horizontal blinker on a 4 by 4 torus, one
advance after population.  The cell at (0, 1) was just born, so it is
alive, but its stored fate after the advance is `DeathByIsolation` (the
fates are recomputed for the new grid at the end of the advance, so they
describe the upcoming transition, not the one just taken), refuting
`is_alive(r,c) == (fate(r,c) in [Birth, Survive])`. -/
theorem fate_alive_claim_counterexample :
    ¬ ((GamePython.trajectory 4 4 0
          (fun r c => if r = 1 && c ≤ 2 then (0 : Rat) else 1) 1).is_alive 0 1 = true ↔
        ((GamePython.trajectory 4 4 0
            (fun r c => if r = 1 && c ≤ 2 then (0 : Rat) else 1) 1).fate 0 1 =
            some Fate.Birth ∨
          (GamePython.trajectory 4 4 0
              (fun r c => if r = 1 && c ≤ 2 then (0 : Rat) else 1) 1).fate 0 1 =
            some Fate.Survive)) := by
  decide

/-- C5 amended: after any advance (and already right after population),
a cell is alive if and only if its stored fate is Survive,
DeathByIsolation or DeathByOvercrowding: the fates queried after an
advance describe the upcoming transition of the new grid, not the
transition that was just taken. -/
theorem alive_iff_fate_of_live_cell (w h : Int) (prob : Rat) (draws : Nat → Nat → Rat)
    (hw : 0 < w) (hh : 0 < h) (n : Nat) (r c : Int) :
    (GamePython.trajectory w h prob draws (n + 1)).is_alive r c = true ↔
      ((GamePython.trajectory w h prob draws (n + 1)).fate r c = some Fate.Survive ∨
        (GamePython.trajectory w h prob draws (n + 1)).fate r c = some Fate.DeathByIsolation ∨
        (GamePython.trajectory w h prob draws (n + 1)).fate r c = some Fate.DeathByOvercrowding) := by
  have hG : (GamePython.trajectory w h prob draws (n + 1)).Good :=
    GamePython.good_advanceN (GamePython.good_populate_random hw hh prob draws) (n + 1)
  have hWF := hG.1
  obtain ⟨hwg, hhg, hcS, hfS, haS⟩ := hWF
  obtain ⟨cv, hc⟩ := TorusGrid.get_some hcS (by omega) (by omega) r c
  have halive : (GamePython.trajectory w h prob draws (n + 1)).is_alive r c =
      ((some cv : Option Nat) == some 1) := by
    rw [GamePython.is_alive, hc]
  rcases GamePython.fate_partition_of_good hG r c cv hc with ⟨rfl, hor⟩ | ⟨rfl, hor⟩
  · constructor
    · intro _
      exact hor
    · intro _
      rw [halive]
      rfl
  · constructor
    · intro hx
      rw [halive] at hx
      exact absurd hx (by decide)
    · intro hx
      rcases hor with h1 | h1 <;> rcases hx with h2 | h2 | h2 <;>
        rw [GamePython.fate, h1] at h2 <;> exact absurd (Option.some.inj h2) (by decide)

/-- Witness for C5's amended statement at a concrete trajectory: the
1 by 1 all-alive engine after one advance (the lone cell dies of
overcrowding during the advance, so it is dead afterwards, and its new
fate is `StayDead`: both sides of the equivalence are false). -/
theorem alive_iff_fate_of_live_cell_witness :
    (0 : Int) < 1 ∧
      ((GamePython.trajectory 1 1 1 (fun _ _ => 0) 1).is_alive 0 0 = true ↔
        ((GamePython.trajectory 1 1 1 (fun _ _ => 0) 1).fate 0 0 = some Fate.Survive ∨
          (GamePython.trajectory 1 1 1 (fun _ _ => 0) 1).fate 0 0 = some Fate.DeathByIsolation ∨
          (GamePython.trajectory 1 1 1 (fun _ _ => 0) 1).fate 0 0 = some Fate.DeathByOvercrowding)) :=
  ⟨by decide, alive_iff_fate_of_live_cell 1 1 1 (fun _ _ => 0) (by decide) (by decide) 0 0 0⟩

end GameOfLife

namespace GameOfLife

/-- C4: in the full engine, immediately after populate_random every age
is 0; during each advance a cell whose stored fate is StayDead or
Survive has its age incremented by exactly 1 and a cell with any other
stored fate has its age set to 0; consequently a cell whose stored fate
is StayDead or Survive for N consecutive generations after population
has age exactly N after those N advances. -/
theorem age_bookkeeping (w h : Int) (prob : Rat) (draws : Nat → Nat → Rat)
    (hw : 0 < w) (hh : 0 < h) :
    (∀ r c, (GamePython.trajectory w h prob draws 0).ages.get r c = some 0) ∧
    (∀ n (r c : Int) fv av,
      (GamePython.trajectory w h prob draws n).fates.get r c = some fv →
      (GamePython.trajectory w h prob draws n).ages.get r c = some av →
      (GamePython.trajectory w h prob draws (n + 1)).ages.get r c =
        some (if fv = Fate.StayDead ∨ fv = Fate.Survive then av + 1 else 0)) ∧
    (∀ N (r c : Int),
      (∀ i, i < N →
        (GamePython.trajectory w h prob draws i).fates.get r c = some Fate.StayDead ∨
        (GamePython.trajectory w h prob draws i).fates.get r c = some Fate.Survive) →
      (GamePython.trajectory w h prob draws N).ages.get r c = some N) := by
  have hbase : ∀ r c : Int, (GamePython.trajectory w h prob draws 0).ages.get r c = some 0 :=
    fun r c => GamePython.ages_get_populate (show 0 < (GamePython.new w h).width from hw)
      (show 0 < (GamePython.new w h).height from hh) prob draws r c
  have hstepAges : ∀ n (r c : Int) fv av,
      (GamePython.trajectory w h prob draws n).fates.get r c = some fv →
      (GamePython.trajectory w h prob draws n).ages.get r c = some av →
      (GamePython.trajectory w h prob draws (n + 1)).ages.get r c =
        some (if fv = Fate.StayDead ∨ fv = Fate.Survive then av + 1 else 0) := by
    intro n r c fv av hf ha
    have hWFn : (GamePython.trajectory w h prob draws n).WF :=
      GamePython.wf_advanceN (GamePython.wf_populate_random hw hh prob draws) n
    have heq : (GamePython.trajectory w h prob draws (n + 1)).ages =
        ((GamePython.trajectory w h prob draws n).apply_fates).ages := rfl
    rw [heq]
    exact GamePython.ages_get_apply hWFn hf ha
  refine ⟨hbase, hstepAges, ?_⟩
  intro N r c
  induction N with
  | zero => exact fun _ => hbase r c
  | succ N ih =>
    intro hcond
    have hage := ih fun i hi => hcond i (by omega)
    rcases hcond N (by omega) with hf | hf
    · rw [hstepAges N r c Fate.StayDead N hf hage]
      simp
    · rw [hstepAges N r c Fate.Survive N hf hage]
      simp

/-- Witness for C4: the 1 by 1 engine populated all-dead (probability 0,
every draw equal to 1). -/
theorem age_bookkeeping_witness :
    (0 : Int) < 1 ∧
      ((∀ r c : Int, (GamePython.trajectory 1 1 0 (fun _ _ => 1) 0).ages.get r c = some 0) ∧
        (∀ n (r c : Int) fv av,
          (GamePython.trajectory 1 1 0 (fun _ _ => 1) n).fates.get r c = some fv →
          (GamePython.trajectory 1 1 0 (fun _ _ => 1) n).ages.get r c = some av →
          (GamePython.trajectory 1 1 0 (fun _ _ => 1) (n + 1)).ages.get r c =
            some (if fv = Fate.StayDead ∨ fv = Fate.Survive then av + 1 else 0)) ∧
        (∀ N (r c : Int),
          (∀ i, i < N →
            (GamePython.trajectory 1 1 0 (fun _ _ => 1) i).fates.get r c = some Fate.StayDead ∨
            (GamePython.trajectory 1 1 0 (fun _ _ => 1) i).fates.get r c = some Fate.Survive) →
          (GamePython.trajectory 1 1 0 (fun _ _ => 1) N).ages.get r c = some N)) :=
  ⟨by decide, age_bookkeeping 1 1 0 (fun _ _ => 1) (by decide) (by decide)⟩

end GameOfLife

namespace GameOfLife

/-! Equivalence of the reduced engine with the full engine. -/

theorem TorusGrid.eq_of_entry {g1 g2 : TorusGrid α} {h w : Nat}
    (hS1 : g1.Shape h w) (hS2 : g2.Shape h w)
    (he : ∀ i j, i < h → j < w → g1.entry i j = g2.entry i j) : g1 = g2 := by
  obtain ⟨hl1, hr1⟩ := hS1
  obtain ⟨hl2, hr2⟩ := hS2
  have hrows : g1.rows = g2.rows := by
    apply List.ext_getElem?
    intro i
    rcases Nat.lt_or_ge i h with hi | hi
    · have hi1 : i < g1.rows.length := by omega
      have hi2 : i < g2.rows.length := by omega
      rw [List.getElem?_eq_getElem hi1, List.getElem?_eq_getElem hi2]
      have hw1 : g1.rows[i].length = w := hr1 _ (List.getElem_mem hi1)
      have hw2 : g2.rows[i].length = w := hr2 _ (List.getElem_mem hi2)
      congr 1
      apply List.ext_getElem?
      intro j
      rcases Nat.lt_or_ge j w with hj | hj
      · have he1 := he i j hi hj
        simp only [TorusGrid.entry, List.getElem?_eq_getElem hi1,
          List.getElem?_eq_getElem hi2, Option.some_bind] at he1
        exact he1
      · rw [List.getElem?_eq_none (by omega), List.getElem?_eq_none (by omega)]
    · rw [List.getElem?_eq_none (by omega), List.getElem?_eq_none (by omega)]
  calc g1 = ⟨g1.rows⟩ := rfl
    _ = ⟨g2.rows⟩ := by rw [hrows]
    _ = g2 := rfl

theorem TorusGrid.get_coe_of_lt {g : TorusGrid α} {h w : Nat} (hS : g.Shape h w)
    (hh : 0 < h) (hw : 0 < w) {i j : Nat} (hi : i < h) (hj : j < w) :
    g.get (i : Int) (j : Int) = g.entry i j := by
  rw [TorusGrid.get_eq_entry hS hh hw]
  have h1 : (i : Int) % ((h : Nat) : Int) = (i : Int) :=
    Int.emod_eq_of_lt (by exact_mod_cast Nat.zero_le i) (by exact_mod_cast hi)
  have h2 : (j : Int) % ((w : Nat) : Int) = (j : Int) :=
    Int.emod_eq_of_lt (by exact_mod_cast Nat.zero_le j) (by exact_mod_cast hj)
  rw [h1, h2, Int.toNat_natCast, Int.toNat_natCast]

@[simp] theorem GamePythonLight.advanceN_keeps_width (g : GamePythonLight) (n : Nat) :
    (GamePythonLight.advanceN g n).width = g.width := by
  induction n with
  | zero => rfl
  | succ n ih => simpa [GamePythonLight.advanceN, GamePythonLight.next_generation,
      GamePythonLight.step] using ih

@[simp] theorem GamePythonLight.advanceN_keeps_height (g : GamePythonLight) (n : Nat) :
    (GamePythonLight.advanceN g n).height = g.height := by
  induction n with
  | zero => rfl
  | succ n ih => simpa [GamePythonLight.advanceN, GamePythonLight.next_generation,
      GamePythonLight.step] using ih

theorem GamePythonLight.newCellOf_wrap {cells : TorusGrid Nat} {h w : Nat}
    (hS : cells.Shape h w) (hh : 0 < h) (hw : 0 < w) {r r' c c' : Int}
    (hr : r % (h : Int) = r' % (h : Int)) (hc : c % (w : Int) = c' % (w : Int)) :
    GamePythonLight.newCellOf cells r c = GamePythonLight.newCellOf cells r' c' := by
  have hcenter : cells.get r c = cells.get r' c' := TorusGrid.get_wrap hS hh hw hr hc
  have hcount : get_number_neighbors cells r c = get_number_neighbors cells r' c' := by
    rw [get_number_neighbors_eq, get_number_neighbors_eq]
    exact liveNeighborCount_wrap hS hh hw hr hc
  rw [GamePythonLight.newCellOf, GamePythonLight.newCellOf, hcenter, hcount]

theorem GamePythonLight.newCell_build_get {cells : TorusGrid Nat} {hN wN : Nat}
    (hS : cells.Shape hN wN) (hh : 0 < hN) (hw : 0 < wN) (r c : Int) :
    (TorusGrid.build hN wN fun i j => GamePythonLight.newCellOf cells i j).get r c =
      some (GamePythonLight.newCellOf cells r c) := by
  have hi := emod_toNat_lt r hN hh
  have hj := emod_toNat_lt c wN hw
  rw [TorusGrid.get_eq_entry (TorusGrid.shape_build hN wN _) hh hw,
    TorusGrid.entry_build _ hi hj]
  congr 1
  apply GamePythonLight.newCellOf_wrap hS hh hw
  · rw [emod_toNat_coe r hN hh, Int.emod_emod_of_dvd r dvd_rfl]
  · rw [emod_toNat_coe c wN hw, Int.emod_emod_of_dvd c dvd_rfl]

/-- Applying the freshly computed fate of a cell produces exactly the
reduced engine's one-pass next-state value. -/
theorem apply_fate_eq_newCell {C : TorusGrid Nat} {r c : Int} {cv : Nat}
    (hc : C.get r c = some cv) (hcv : cv = 0 ∨ cv = 1) :
    (if GamePython.fateOf C r c = Fate.StayDead ∨ GamePython.fateOf C r c = Fate.Survive
      then cv
      else if GamePython.fateOf C r c = Fate.Birth then 1 else 0) =
    GamePythonLight.newCellOf C r c := by
  rcases hcv with rfl | rfl
  · have hf : GamePython.fateOf C r c =
        if get_number_neighbors C r c = 3 then Fate.Birth else Fate.StayDead := by
      simp [GamePython.fateOf, hc]
    rcases Decidable.em (get_number_neighbors C r c = 3) with hn | hn
    · rw [hf, if_pos hn]
      simp [GamePythonLight.newCellOf, hc, hn]
    · rw [hf, if_neg hn]
      simp [GamePythonLight.newCellOf, hc, hn]
  · have hf : GamePython.fateOf C r c =
        if get_number_neighbors C r c < 2 then Fate.DeathByIsolation
        else if get_number_neighbors C r c > 3 then Fate.DeathByOvercrowding
        else Fate.Survive := by
      simp [GamePython.fateOf, hc]
    rcases Decidable.em (get_number_neighbors C r c < 2) with hn | hn
    · have hn2 : ¬ (2 ≤ get_number_neighbors C r c) := by omega
      rw [hf, if_pos hn]
      simp [GamePythonLight.newCellOf, hc, hn2]
    · rcases Decidable.em (get_number_neighbors C r c > 3) with hm | hm
      · have hm2 : ¬ (get_number_neighbors C r c ≤ 3) := by omega
        rw [hf, if_neg hn, if_pos hm]
        simp [GamePythonLight.newCellOf, hc, hm2]
      · have hn2 : 2 ≤ get_number_neighbors C r c := by omega
        have hm2 : get_number_neighbors C r c ≤ 3 := by omega
        rw [hf, if_neg hn, if_neg hm]
        simp [GamePythonLight.newCellOf, hc, hn2, hm2]

theorem light_cells_eq (w h : Int) (prob : Rat) (draws : Nat → Nat → Rat)
    (hw : 0 < w) (hh : 0 < h) (n : Nat) :
    (GamePythonLight.trajectory w h prob draws n).cells =
      (GamePython.trajectory w h prob draws n).cells := by
  induction n with
  | zero => rfl
  | succ n ih =>
    have hG : (GamePython.trajectory w h prob draws n).Good :=
      GamePython.good_advanceN (GamePython.good_populate_random hw hh prob draws) n
    obtain ⟨hwg, hhg, hcS, hfS, haS⟩ := hG.1
    have hgw : (GamePython.trajectory w h prob draws n).width = w := by
      simp [GamePython.trajectory]
      rfl
    have hgh : (GamePython.trajectory w h prob draws n).height = h := by
      simp [GamePython.trajectory]
      rfl
    have hlw : (GamePythonLight.trajectory w h prob draws n).width = w := by
      simp [GamePythonLight.trajectory]
      rfl
    have hlh : (GamePythonLight.trajectory w h prob draws n).height = h := by
      simp [GamePythonLight.trajectory]
      rfl
    have hh2 : 0 < h.toNat := by omega
    have hw2 : 0 < w.toNat := by omega
    have hcS2 : (GamePython.trajectory w h prob draws n).cells.Shape h.toNat w.toNat := by
      rw [hgh, hgw] at hcS
      exact hcS
    -- the light step builds the new grid from the one-pass rule
    have hL : (GamePythonLight.trajectory w h prob draws (n + 1)).cells =
        TorusGrid.build h.toNat w.toNat fun i j =>
          GamePythonLight.newCellOf (GamePython.trajectory w h prob draws n).cells i j := by
      have hstep : (GamePythonLight.trajectory w h prob draws (n + 1)).cells =
          TorusGrid.build (GamePythonLight.trajectory w h prob draws n).height.toNat
            (GamePythonLight.trajectory w h prob draws n).width.toNat fun i j =>
            GamePythonLight.newCellOf (GamePythonLight.trajectory w h prob draws n).cells i j :=
        rfl
      rw [hstep, hlh, hlw, ih]
    -- the full step applies the stored (freshly computed) fates
    have hR : (GamePython.trajectory w h prob draws (n + 1)).cells =
        ((GamePython.trajectory w h prob draws n).apply_fates).cells := rfl
    rw [hL, hR]
    have happS : ((GamePython.trajectory w h prob draws n).apply_fates).cells.Shape
        h.toNat w.toNat := by
      obtain ⟨_, _, hS3, _, _⟩ :=
        GamePython.wf_apply_fates ⟨hwg, hhg, hcS, hfS, haS⟩
      rw [GamePython.height_apply_fates, GamePython.width_apply_fates, hgh, hgw] at hS3
      exact hS3
    apply TorusGrid.eq_of_entry (TorusGrid.shape_build _ _ _) happS
    intro i j hi hj
    obtain ⟨cv, hc⟩ := TorusGrid.get_some hcS2 hh2 hw2 (i : Int) (j : Int)
    have hfate : (GamePython.trajectory w h prob draws n).fates.get (i : Int) (j : Int) =
        some (GamePython.fateOf (GamePython.trajectory w h prob draws n).cells i j) :=
      GamePython.fates_get_of_fresh ⟨hwg, hhg, hcS, hfS, haS⟩ hG.2.1 (i : Int) (j : Int)
    have happ := GamePython.cells_get_apply ⟨hwg, hhg, hcS, hfS, haS⟩ hfate hc
    have hget1 : ((GamePython.trajectory w h prob draws n).apply_fates).cells.entry i j =
        some (if GamePython.fateOf (GamePython.trajectory w h prob draws n).cells i j =
            Fate.StayDead ∨
            GamePython.fateOf (GamePython.trajectory w h prob draws n).cells i j = Fate.Survive
          then cv
          else if GamePython.fateOf (GamePython.trajectory w h prob draws n).cells i j =
              Fate.Birth
            then 1 else 0) := by
      rw [← TorusGrid.get_coe_of_lt happS hh2 hw2 hi hj]
      exact happ
    rw [TorusGrid.entry_build _ hi hj, hget1]
    congr 1
    exact (apply_fate_eq_newCell hc (hG.2.2 (i : Int) (j : Int) cv hc)).symm

/-- C2: for every construction size, population, and number of advances,
the reduced engine (GamePythonLight, single-pass next state, no
fate / age bookkeeping) holds exactly the same alive/dead cell value at
every location as the full fate-tracking engine (GamePython) started
from the same initial grid after the same number of advances. -/
theorem light_engine_matches_full_engine (w h : Int) (prob : Rat)
    (draws : Nat → Nat → Rat) (hw : 0 < w) (hh : 0 < h) (n : Nat) (r c : Int) :
    (GamePythonLight.trajectory w h prob draws n).cells.get r c =
      (GamePython.trajectory w h prob draws n).cells.get r c := by
  rw [light_cells_eq w h prob draws hw hh n]

/-- Witness for C2 at a concrete trajectory: 1 by 1 all-alive engines
after one advance. -/
theorem light_engine_matches_full_engine_witness :
    (0 : Int) < 1 ∧
      (GamePythonLight.trajectory 1 1 1 (fun _ _ => 0) 1).cells.get 0 0 =
        (GamePython.trajectory 1 1 1 (fun _ _ => 0) 1).cells.get 0 0 :=
  ⟨by decide, light_engine_matches_full_engine 1 1 1 (fun _ _ => 0) (by decide) (by decide) 1 0 0⟩

end GameOfLife

namespace GameOfLife

/-- C7 counterexample: populate a 2 by 2 engine all-alive (probability
1), then call reset.  Reset takes no probability and does not repopulate:
it leaves the all-dead default state (cell (0,0) was alive before and is
dead after, with default fate StayDead and age 0), not a freshly
randomized grid. -/
theorem reset_claim_counterexample :
    ((GamePython.reset ((GamePython.new 2 2).populate_random 1 (fun _ _ => 0))).cells.get 0 0 =
        some 0) ∧
      ((GamePython.new 2 2).populate_random 1 (fun _ _ => 0)).cells.get 0 0 = some 1 ∧
      (GamePython.reset ((GamePython.new 2 2).populate_random 1 (fun _ _ => 0))).fates.get 0 0 =
        some Fate.StayDead ∧
      (GamePython.reset ((GamePython.new 2 2).populate_random 1 (fun _ _ => 0))).generation = 1 := by
  decide

/-- C7 amended: reset takes no probability and performs no random
population; it sets the generation back to 1 and re-creates the three
grids in their construction-time default state (every cell dead, every
fate StayDead, every age 0), identical to a fresh construction with the
same dimensions.  Randomization only happens if the caller follows up
with populate_random, as the UI layer does. -/
theorem reset_reinitializes_default_state (g : GamePython) :
    GamePython.reset g = GamePython.new g.width g.height ∧
      (0 < g.width → 0 < g.height → ∀ r c : Int,
        (GamePython.reset g).cells.get r c = some 0 ∧
        (GamePython.reset g).fates.get r c = some Fate.StayDead ∧
        (GamePython.reset g).ages.get r c = some 0 ∧
        (GamePython.reset g).generation = 1) := by
  refine ⟨rfl, fun hw hh r c => ?_⟩
  exact ⟨TorusGrid.get_create 0 hw hh r c, TorusGrid.get_create Fate.StayDead hw hh r c,
    TorusGrid.get_create 0 hw hh r c, rfl⟩

/-- Witness for C7's amended statement on a concrete engine. -/
theorem reset_reinitializes_default_state_witness :
    GamePython.reset ((GamePython.new 2 2).populate_random 1 (fun _ _ => 0)) =
        GamePython.new 2 2 ∧
      ((GamePython.reset ((GamePython.new 2 2).populate_random 1 (fun _ _ => 0))).cells.get 1 1 =
          some 0 ∧
        (GamePython.reset ((GamePython.new 2 2).populate_random 1 (fun _ _ => 0))).fates.get 1 1 =
          some Fate.StayDead ∧
        (GamePython.reset ((GamePython.new 2 2).populate_random 1 (fun _ _ => 0))).ages.get 1 1 =
          some 0 ∧
        (GamePython.reset ((GamePython.new 2 2).populate_random 1 (fun _ _ => 0))).generation = 1) :=
  ⟨(reset_reinitializes_default_state ((GamePython.new 2 2).populate_random 1 (fun _ _ => 0))).1,
    (reset_reinitializes_default_state ((GamePython.new 2 2).populate_random 1
      (fun _ _ => 0))).2 (by decide) (by decide) 1 1⟩

/-- C8 counterexample: populate_random(0.0) is not all-dead regardless
of the drawn values.  The code tests `random.random() <= prob`, and 0.0
is a value `random.random()` can return: with a draw of exactly 0 the
cell comes out alive under probability 0. -/
theorem populate_zero_claim_counterexample :
    ((GamePython.new 1 1).populate_random 0 (fun _ _ => 0)).cells.get 0 0 = some 1 := by
  decide

/-- C8 amended: populate_random(1.0) yields an all-alive grid for every
possible sequence of draws (`random.random()` always returns a value
strictly below 1); populate_random(0.0) yields an all-dead grid only
under the extra assumption that no draw is exactly 0 — the comparison is
`draw <= prob`, so a draw of exactly 0.0 produces a live cell even with
probability 0. -/
theorem populate_extreme_probabilities (w h : Int) (draws : Nat → Nat → Rat)
    (r c : Int) (hw : 0 < w) (hh : 0 < h) :
    ((∀ i j, draws i j < 1) →
      ((GamePython.new w h).populate_random 1 draws).cells.get r c = some 1) ∧
    ((∀ i j, 0 < draws i j) →
      ((GamePython.new w h).populate_random 0 draws).cells.get r c = some 0) := by
  constructor
  · intro hlt
    rw [GamePython.cells_populate_random]
    show (populate_cells w h 1 draws).get r c = some 1
    rw [GamePython.cells_get_populate_cells hw hh]
    rw [if_pos (le_of_lt (hlt _ _))]
  · intro hpos
    rw [GamePython.cells_populate_random]
    show (populate_cells w h 0 draws).get r c = some 0
    rw [GamePython.cells_get_populate_cells hw hh]
    rw [if_neg (not_le.mpr (hpos _ _))]

/-- Witness for C8's amended statement with the constant draw 1/2. -/
theorem populate_extreme_probabilities_witness :
    ((GamePython.new 1 1).populate_random 1 (fun _ _ => (1 : Rat) / 2)).cells.get 0 0 = some 1 ∧
    ((GamePython.new 1 1).populate_random 0 (fun _ _ => (1 : Rat) / 2)).cells.get 0 0 = some 0 :=
  ⟨(populate_extreme_probabilities 1 1 (fun _ _ => (1 : Rat) / 2) 0 0 (by decide)
      (by decide)).1 (fun _ _ => by norm_num),
    (populate_extreme_probabilities 1 1 (fun _ _ => (1 : Rat) / 2) 0 0 (by decide)
      (by decide)).2 (fun _ _ => by norm_num)⟩

/-- C9 counterexample: constructing the engine with width 0 (or any
non-positive dimension) does not fail — there is no InvalidDimensions
error anywhere in the code — and yields a live engine value with
non-positive width: generation 1 and a degenerate cell grid of 5 empty
rows. -/
theorem invalid_dimensions_claim_counterexample :
    (GamePython.new 0 5).width = 0 ∧ (GamePython.new 0 5).generation = 1 ∧
      (GamePython.new 0 5).cells.rows.length = 5 ∧
      (GamePython.new 0 5).cells.rows.all (fun row => row.length = 0) = true := by
  decide

/-- C9 amended: construction performs no dimension validation and never
fails for any integer dimensions; with width or height non-positive it
silently produces a degenerate engine (max(height,0) rows of
max(width,0) cells each, generation 1); with height non-positive, reads
fail at access time (the modulo-by-zero of the empty row list, modelled
as none), not at construction time. -/
theorem construction_never_fails (w h : Int) :
    (GamePython.new w h).width = w ∧
    (GamePython.new w h).height = h ∧
    (GamePython.new w h).generation = 1 ∧
    (GamePython.new w h).cells.Shape h.toNat w.toNat ∧
    (h ≤ 0 → ∀ r c : Int, (GamePython.new w h).cells.get r c = none) := by
  refine ⟨rfl, rfl, rfl, TorusGrid.shape_create w h 0, fun hne r c => ?_⟩
  have hrows : (GamePython.new w h).cells.rows = [] := by
    have : h.toNat = 0 := by omega
    simp [GamePython.new, TorusGrid.create, this]
  rw [TorusGrid.get, CircularList.get, hrows]
  rfl

/-- Witness for C9's amended statement at the degenerate dimensions
width 3, height -1. -/
theorem construction_never_fails_witness :
    ((GamePython.new 3 (-1)).width = 3 ∧
      (GamePython.new 3 (-1)).height = -1 ∧
      (GamePython.new 3 (-1)).generation = 1 ∧
      (GamePython.new 3 (-1)).cells.Shape (-1 : Int).toNat (3 : Int).toNat) ∧
    (GamePython.new 3 (-1)).cells.get 0 0 = none :=
  ⟨⟨(construction_never_fails 3 (-1)).1, (construction_never_fails 3 (-1)).2.1,
      (construction_never_fails 3 (-1)).2.2.1, (construction_never_fails 3 (-1)).2.2.2.1⟩,
    (construction_never_fails 3 (-1)).2.2.2.2 (by decide) 0 0⟩

end GameOfLife
